import Mathlib

/-!
Shallow embedding of the chess move-generation/move-execution engine of the
repository (files `piezas.py` and `ajedrez.py`), together with theorems
settling the specification claims.

Modelling conventions:
* Python boards are 8×8 numpy arrays of fixed-width strings (`'...'` = empty);
  here `Tablero := Fin 8 → Fin 8 → String`.
* Python integers are Lean `Int` (board arithmetic can go negative).
* numpy indexing semantics: an index `i` with `-8 ≤ i < 0` wraps to `i + 8`;
  indices outside `[-8, 8)` raise `IndexError`.  `npIdx` captures this; `celda`
  is the total variant returning the empty marker in the (never-exercised)
  out-of-range case.
* `dict` state (`GestorPiezas.piezas`) is an association list `Gestor`.
* Python exceptions are `Option`-failures (`none`) in fallible operations.
-/

/-- Movement type tags of `TipoMovimiento` in `piezas.py`. -/
inductive TipoMovimiento where
  | normal
  | enroque
  | en_passant
  | promocion
deriving DecidableEq

/-- Embeds `MovimientoAjedrez`: a move carrying origin/destination notation strings,
a type tag, and optional extra info (promotion kind letter or castle text). -/
structure MovimientoAjedrez where
  desde : String
  hasta : String
  tipo : TipoMovimiento
  info_adicional : Option String
deriving DecidableEq

/-- Embeds `MovimientosTablero.COLUMNAS`: file letters (Python list of 1-char strings). -/
def COLUMNAS : List Char := ['a', 'b', 'c', 'd', 'e', 'f', 'g', 'h']

/-- Embeds `MovimientosTablero.notacion_a_posicion`: algebraic text to matrix indices.
`COLUMNAS.index(notacion[0].lower())` raises `ValueError` when the lowercased
letter is absent; `int(notacion[1])` raises `ValueError` for a non-digit; an
input shorter than two characters raises `IndexError`.  All three failures are
`none`.  The digit is NOT range-checked by the source: `8 - digit` is returned
as-is (possibly `-1` or `8`). -/
def notacion_a_posicion (notacion : String) : Option (Int × Int) :=
  match notacion.data with
  | c0 :: c1 :: _ =>
    match COLUMNAS.findIdx? (fun x => x = c0.toLower) with
    | some col =>
      if c1.isDigit then some ((8 : Int) - ((c1.toNat - '0'.toNat : Nat) : Int), (col : Int))
      else none
    | none => none
  | _ => none

/-- File letter of a column index, with numpy/Python list semantics: negative
indices in `[-8, 0)` wrap; anything else would raise `IndexError` (rendered as
a placeholder character, never exercised by guarded call sites). -/
def letraColumna (col : Int) : Char :=
  if 0 ≤ col ∧ col < 8 then COLUMNAS.getD col.toNat '?'
  else if -8 ≤ col ∧ col < 0 then COLUMNAS.getD (col + 8).toNat '?'
  else '?'

/-- Embeds `MovimientosTablero.posicion_a_notacion`: matrix indices to algebraic text,
the f-string `f"{COLUMNAS[col]}{8-fila}"`. -/
def posicion_a_notacion (fila col : Int) : String :=
  ⟨letraColumna col :: (toString (8 - fila)).data⟩

/-- Embeds `MovimientosTablero.dentro_tablero`. -/
def dentro_tablero (fila col : Int) : Bool :=
  decide (0 ≤ fila) && decide (fila < 8) && decide (0 ≤ col) && decide (col < 8)

/-- Embeds `MovimientosTablero.obtener_direccion_color`. -/
def obtener_direccion_color (color : Char) : Int :=
  if color = 'B' then -1 else 1

/-- Embeds `MovimientosTablero.obtener_fila_inicial`. -/
def obtener_fila_inicial (color : Char) : Int :=
  if color = 'B' then 6 else 1

/-- Board: 8×8 grid of occupant strings, `"..."` marking an empty square. -/
abbrev Tablero : Type := Fin 8 → Fin 8 → String

/-- The all-empty board (used as the base of concrete test layouts). -/
def tablero_vacio : Tablero := fun _ _ => "..."

/-- numpy index resolution: in-range, negative wrap, or `IndexError` (`none`). -/
def npIdx (i : Int) : Option (Fin 8) :=
  if h : 0 ≤ i ∧ i < 8 then some ⟨i.toNat, by omega⟩
  else if h : -8 ≤ i ∧ i < 0 then some ⟨(i + 8).toNat, by omega⟩
  else none

/-- Total board read at `Int` indices (numpy semantics; the unreachable
`IndexError` case yields the empty marker — every call site in the embedded
generators is guarded by `dentro_tablero`). -/
def celda (t : Tablero) (f c : Int) : String :=
  match npIdx f, npIdx c with
  | some i, some j => t i j
  | _, _ => "..."

/-- Board write `t[f][c] = v` at already-resolved indices. -/
def setCelda (t : Tablero) (f c : Fin 8) (v : String) : Tablero :=
  fun i j => if i = f ∧ j = c then v else t i j

/-- First character of a string: Python `s[0]`.  The `IndexError` raised on an
empty string is rendered as a placeholder (cells holding `""` never occur in
the program's boards). -/
def primera (s : String) : Char := s.data.headD '?'

/-- Runtime state of one piece: the fields of `Pieza.__init__` (plus the
pawn-only `movimiento_doble_reciente` of `Peon.__init__`, `False` for other
kinds).  `tipo` is the class's kind letter (factory key); `id` is derived. -/
structure Pieza where
  tipo : Char
  color : Char
  numero : Nat
  movida : Bool
  movimiento_doble_reciente : Bool
deriving DecidableEq

/-- Embeds `Peon.direccion`, assigned in the constructor from the color. -/
def Pieza.direccion (p : Pieza) : Int := obtener_direccion_color p.color

/-- Embeds `Peon.fila_inicial`, assigned in the constructor from the color. -/
def Pieza.fila_inicial (p : Pieza) : Int := obtener_fila_inicial p.color

/-- The piece registry `GestorPiezas.piezas`: an insertion-ordered dict,
modelled as an association list. -/
abbrev Gestor : Type := List (String × Pieza)

/-- Embeds `GestorPiezas.get_pieza`: dictionary lookup, never creates. -/
def Gestor.get_pieza (g : Gestor) (id_pieza : String) : Option Pieza :=
  (g.find? (fun kv => kv.1 == id_pieza)).map (fun kv => kv.2)

/-- Python `del self.piezas[k]` (guarded by membership at both call sites). -/
def Gestor.borrar (g : Gestor) (k : String) : Gestor :=
  g.filter (fun kv => kv.1 != k)

/-- Python `self.piezas[k] = v` (insert or overwrite). -/
def Gestor.insertar (g : Gestor) (k : String) (v : Pieza) : Gestor :=
  if g.any (fun kv => kv.1 == k) then
    g.map (fun kv => if kv.1 = k then (k, v) else kv)
  else g ++ [(k, v)]

/-- In-place mutation of the record stored under `k` (Python mutates the piece
object; the dict entry reflects it exactly when the key is still present). -/
def Gestor.actualizar (g : Gestor) (k : String) (v : Pieza) : Gestor :=
  g.map (fun kv => if kv.1 = k then (k, v) else kv)

/-- Key list of the registry (`self.piezas.keys()`). -/
def Gestor.claves (g : Gestor) : List String := g.map (fun kv => kv.1)

/-- Whether `id_pieza` occupies some cell of the board (the scan building
`piezas_en_tablero` in `sincronizar_con_tablero`). -/
def enTablero (t : Tablero) (id_pieza : String) : Bool :=
  (List.finRange 8).any (fun i => (List.finRange 8).any (fun j => t i j == id_pieza))

/-- Embeds `GestorPiezas.sincronizar_con_tablero`: delete every registry entry whose
id is not on the board (set difference, realised as a filter). -/
def sincronizar_con_tablero (g : Gestor) (t : Tablero) : Gestor :=
  g.filter (fun kv => enTablero t kv.1)

/-- The move strings built by the generators: Python `f"{desde} {hasta}"`. -/
def movStr (a b : String) : String := a ++ " " ++ b

/-- Embeds `Peon.obtener_hijos`: forward advance onto an empty square, the nested
initial double step (requiring `not self.movida and f == self.fila_inicial`
and an empty destination), and the two diagonal captures onto enemy-occupied
squares.  Output order matches the source's appends. -/
def Peon.obtener_hijos (p : Pieza) (pos_actual : Int × Int) (t : Tablero) : List String :=
  let f := pos_actual.1
  let c := pos_actual.2
  let pos_actual_not := posicion_a_notacion f c
  let adelante :=
    if dentro_tablero (f + p.direccion) c ∧ celda t (f + p.direccion) c = "..." then
      movStr pos_actual_not (posicion_a_notacion (f + p.direccion) c) ::
        (if ¬p.movida ∧ f = p.fila_inicial ∧
            dentro_tablero (f + 2 * p.direccion) c ∧ celda t (f + 2 * p.direccion) c = "..." then
          [movStr pos_actual_not (posicion_a_notacion (f + 2 * p.direccion) c)]
        else [])
    else []
  let capturas := ([-1, 1] : List Int).foldr
    (fun dc acc =>
      (if dentro_tablero (f + p.direccion) (c + dc) ∧
          celda t (f + p.direccion) (c + dc) ≠ "..." ∧
          primera (celda t (f + p.direccion) (c + dc)) ≠ p.color then
        [movStr pos_actual_not (posicion_a_notacion (f + p.direccion) (c + dc))]
      else []) ++ acc) []
  adelante ++ capturas

/-- One sliding ray (the shared `for _ in range(1, 8)` loop body of
`Torre.obtener_hijos`, `Alfil.obtener_hijos` and `Queen.obtener_hijos`):
step until off-board; an empty square is collected and the walk continues; the
first occupied square stops the walk, collected exactly when enemy-occupied. -/
def barrido (color : Char) (t : Tablero) (df dc : Int) :
    Nat → Int → Int → List (Int × Int)
  | 0, _, _ => []
  | fuel + 1, f, c =>
    let nf := f + df
    let nc := c + dc
    if dentro_tablero nf nc then
      if celda t nf nc = "..." then (nf, nc) :: barrido color t df dc fuel nf nc
      else if primera (celda t nf nc) ≠ color then [(nf, nc)]
      else []
    else []

/-- Embeds `Torre.DIRECCIONES`. -/
def Torre.DIRECCIONES : List (Int × Int) := [(0, 1), (1, 0), (0, -1), (-1, 0)]

/-- Embeds `Alfil.DIRECCIONES`. -/
def Alfil.DIRECCIONES : List (Int × Int) := [(1, 1), (1, -1), (-1, 1), (-1, -1)]

/-- Embeds `Queen.DIRECCIONES`. -/
def Queen.DIRECCIONES : List (Int × Int) :=
  [(0, 1), (0, -1), (1, 0), (-1, 0), (1, 1), (1, -1), (-1, 1), (-1, -1)]

/-- The common sweep of the three sliding `obtener_hijos` methods: for each
direction in order, walk the ray (7 loop iterations) and render each collected
destination as a move string. -/
def barridoDirecciones (dirs : List (Int × Int)) (color : Char)
    (pos_actual : Int × Int) (t : Tablero) : List String :=
  let pos_actual_not := posicion_a_notacion pos_actual.1 pos_actual.2
  dirs.foldr
    (fun d acc =>
      (barrido color t d.1 d.2 7 pos_actual.1 pos_actual.2).map
        (fun q => movStr pos_actual_not (posicion_a_notacion q.1 q.2)) ++ acc) []

/-- Embeds `Torre.obtener_hijos`. -/
def Torre.obtener_hijos (p : Pieza) (pos_actual : Int × Int) (t : Tablero) : List String :=
  barridoDirecciones Torre.DIRECCIONES p.color pos_actual t

/-- Embeds `Alfil.obtener_hijos`. -/
def Alfil.obtener_hijos (p : Pieza) (pos_actual : Int × Int) (t : Tablero) : List String :=
  barridoDirecciones Alfil.DIRECCIONES p.color pos_actual t

/-- Embeds `Queen.obtener_hijos`. -/
def Queen.obtener_hijos (p : Pieza) (pos_actual : Int × Int) (t : Tablero) : List String :=
  barridoDirecciones Queen.DIRECCIONES p.color pos_actual t

/-- Embeds `Rey._verificar_enroque`: the while loop starts one square beside the
king's column and advances toward the rook's column, stopping as soon as
`col_actual == col_final` — i.e. it inspects exactly the
`|col_torre - col_inicial| - 1` squares strictly between the two columns
(despite the adjacent comment claiming inclusivity), rendered here as a
bounded scan of those columns. -/
def verificar_enroque (t : Tablero) (fila col_inicial col_torre : Int) : Bool :=
  let direccion : Int := if col_torre > col_inicial then 1 else -1
  (List.range ((col_torre - col_inicial).natAbs - 1)).all
    (fun k => celda t fila (col_inicial + direccion * ((k : Int) + 1)) == "...")

/-- Embeds `Rey.obtener_movimientos_especiales`: castling candidates.  Note the
king's actual `pos_actual` is ignored — origin/destination are rebuilt from
the color's home rank and the fixed e/g/c files. -/
def Rey.obtener_movimientos_especiales (rey : Pieza) (g : Gestor)
    (_pos_actual : Int × Int) (t : Tablero) : List MovimientoAjedrez :=
  if rey.movida then []
  else
    let fila_rey : Int := if rey.color = 'B' then 7 else 0
    let torre_corto_id : String := if rey.color = 'B' then "BT2" else "NT2"
    let torre_largo_id : String := if rey.color = 'B' then "BT1" else "NT1"
    let cortos :=
      if celda t fila_rey 7 = torre_corto_id then
        match Gestor.get_pieza g torre_corto_id with
        | some torre =>
          if ¬torre.movida ∧ verificar_enroque t fila_rey 4 7 then
            [⟨posicion_a_notacion fila_rey 4, posicion_a_notacion fila_rey 6,
              TipoMovimiento.enroque, some "O-O"⟩]
          else []
        | none => []
      else []
    let largos :=
      if celda t fila_rey 0 = torre_largo_id then
        match Gestor.get_pieza g torre_largo_id with
        | some torre =>
          if ¬torre.movida ∧ verificar_enroque t fila_rey 4 0 then
            [⟨posicion_a_notacion fila_rey 4, posicion_a_notacion fila_rey 2,
              TipoMovimiento.enroque, some "O-O-O"⟩]
          else []
        | none => []
      else []
    cortos ++ largos

/-- Embeds `PIEZAS_FACTORY` key lookup: the recognized kind letters.  A missing key
is Python's `KeyError`. -/
def piezasFactory (tipo : String) : Option Char :=
  if tipo = "P" then some 'P'
  else if tipo = "T" then some 'T'
  else if tipo = "C" then some 'C'
  else if tipo = "A" then some 'A'
  else if tipo = "Q" then some 'Q'
  else if tipo = "R" then some 'R'
  else none

/-- The per-key body of the promotion branch's instance-number loop: ids with
the `color+tipo` head keep the running maximum updated from `int(pid[2])`
(`ValueError` on a non-digit third character is caught and skipped; a matching
id shorter than three characters would raise an uncaught `IndexError`). -/
def pasoMaxNum (pre : List Char) (acc : Nat) (pid : String) : Option Nat :=
  if pre.isPrefixOf pid.data then
    match pid.data.get? 2 with
    | none => none
    | some ch => if ch.isDigit then some (max acc (ch.toNat - '0'.toNat)) else some acc
  else some acc

/-- Embeds `GestorPiezas.ejecutar_movimiento` up to (but not including) the final
`sincronizar_con_tablero` call: notation decoding and board reads (numpy
`IndexError` = `none`), the capture deletion, and the per-type processing.
The `ENROQUE` arm of the source is literally `pass` — it leaves the board copy
and the registry untouched.  `NORMAL` and `EN_PASSANT` share the `else` arm. -/
def ejecutar_core (movimiento : MovimientoAjedrez) (tablero : Tablero) (g : Gestor) :
    Option (Tablero × Gestor) :=
  match notacion_a_posicion movimiento.desde with
  | none => none
  | some fc_desde =>
  match notacion_a_posicion movimiento.hasta with
  | none => none
  | some fc_hasta =>
  match npIdx fc_desde.1 with
  | none => none
  | some fd =>
  match npIdx fc_desde.2 with
  | none => none
  | some cd =>
  match npIdx fc_hasta.1 with
  | none => none
  | some fh =>
  match npIdx fc_hasta.2 with
  | none => none
  | some ch =>
  let pieza_id := tablero fd cd
  let piezaOpt := Gestor.get_pieza g pieza_id
  let pieza_destino_id := tablero fh ch
  let g1 :=
    if pieza_destino_id ≠ "..." ∧ movimiento.tipo ≠ TipoMovimiento.enroque then
      Gestor.borrar g pieza_destino_id
    else g
  match movimiento.tipo with
  | TipoMovimiento.promocion =>
    match pieza_id.data.head? with
    | none => none
    | some color =>
    let tipoStr : String := match movimiento.info_adicional with
      | some s => s
      | none => "None"
    match (Gestor.claves g1).foldlM (pasoMaxNum (color :: tipoStr.data)) 0 with
    | none => none
    | some max_num =>
    let nuevo_num := max_num + 1
    let nuevo_id : String := ⟨color :: tipoStr.data ++ (toString nuevo_num).data⟩
    let g2 := Gestor.borrar g1 pieza_id
    match piezasFactory tipoStr with
    | none => none
    | some tipoChar =>
    let nueva_pieza : Pieza :=
      { tipo := tipoChar, color := color, numero := nuevo_num,
        movida := false, movimiento_doble_reciente := false }
    let g3 := Gestor.insertar g2 nuevo_id nueva_pieza
    let t1 := setCelda tablero fd cd "..."
    let t2 := setCelda t1 fh ch nuevo_id
    some (t2, g3)
  | TipoMovimiento.enroque =>
    some (tablero, g1)
  | _ =>
    let t1 := setCelda tablero fh ch pieza_id
    let t2 := setCelda t1 fd cd "..."
    match piezaOpt with
    | none => none
    | some pieza =>
    let pieza1 :=
      if pieza.tipo = 'P' then
        { pieza with movimiento_doble_reciente := (fc_hasta.1 - fc_desde.1).natAbs = 2 }
      else pieza
    let pieza2 := { pieza1 with movida := true }
    let g2 := Gestor.actualizar g1 pieza_id pieza2
    some (t2, g2)

/-- Embeds `GestorPiezas.ejecutar_movimiento`: the core processing followed by the
final `self.sincronizar_con_tablero(nuevo_tablero)` and the return of the new
board (paired here with the mutated registry). -/
def ejecutar_movimiento (movimiento : MovimientoAjedrez) (tablero : Tablero) (g : Gestor) :
    Option (Tablero × Gestor) :=
  (ejecutar_core movimiento tablero g).map
    (fun r => (r.1, sincronizar_con_tablero r.2 r.1))

/-- One color+kind block of `GestorPiezas._inicializar_piezas`: ids
`<color><tipo>1 .. <color><tipo>n`, each a fresh record with `movida = false`. -/
def piezasBloque (color tipo : Char) (cantidad : Nat) : Gestor :=
  (List.range cantidad).map
    (fun i =>
      (⟨[color, tipo, Char.ofNat ('0'.toNat + (i + 1))]⟩,
       { tipo := tipo, color := color, numero := i + 1,
         movida := false, movimiento_doble_reciente := false }))

/-- Embeds `GestorPiezas._inicializar_piezas`: the 32 standard records, registered in
the source's nesting order (color B then N; kinds P×8, T×2, C×2, A×2, Q, R). -/
def gestor_inicial : Gestor :=
  (['B', 'N'].map
    (fun color =>
      ([('P', 8), ('T', 2), ('C', 2), ('A', 2), ('Q', 1), ('R', 1)] : List (Char × Nat)).map
        (fun tc => piezasBloque color tc.1 tc.2)
      |>.flatten)).flatten

/-- Driver state of `AgenteAjedrez` as far as the claims reach: the side the
agent plays (`1` = white, `-1` = black), the board, and the piece registry.
The search bookkeeping (`visitados`, `padre`, `hijos`, `max_profundidad`) and
the debug-only `verificar_consistencia` call never touch board or registry and
are omitted. -/
structure AgenteAjedrez where
  color : Int
  estado : Tablero
  gestor_piezas : Gestor

/-- Embeds `AgenteAjedrez.mover`.  The outer `Option` is exception propagation
(string/board indexing, notation decoding, execution); the inner
`Option Bool` is the Python return value — `none` models the bare `return`
(Python `None`) taken when the promotion target is `'P'` or `'R'`, before any
move is constructed. -/
def mover (ag : AgenteAjedrez) (cadena : String) (promocion_pieza : String) :
    Option (Option Bool × AgenteAjedrez) :=
  if promocion_pieza = "P" ∨ promocion_pieza = "R" then
    some (none, ag)
  else
    let movimientoOpt : Option (Option MovimientoAjedrez) :=
      if cadena = "O-O" ∨ cadena = "O-O-O" then
        let fila : Int := if ag.color = 1 then 7 else 0
        let ds := (toString (8 - fila)).data
        let desde : String := ⟨'e' :: ds⟩
        let hasta : String := ⟨(if cadena = "O-O" then 'g' else 'c') :: ds.take 1⟩
        some (some ⟨desde, hasta, TipoMovimiento.enroque, some cadena⟩)
      else do
        let c0 ← cadena.data.get? 0
        let c1 ← cadena.data.get? 1
        let c3 ← cadena.data.get? 3
        let c4 ← cadena.data.get? 4
        let desde : String := ⟨[c0, c1]⟩
        let hasta : String := ⟨[c3, c4]⟩
        let fc ← notacion_a_posicion desde
        let fi ← npIdx fc.1
        let ci ← npIdx fc.2
        let id_pieza := ag.estado fi ci
        if id_pieza = "..." then
          return none
        else
          let es_pieza_blanca := id_pieza.data.head? = some 'B'
          if (ag.color = 1 ∧ ¬es_pieza_blanca) ∨ (ag.color = -1 ∧ es_pieza_blanca) then
            return none
          else do
            let ct ← id_pieza.data.get? 1
            if ct = 'P' ∧ (c4 = '8' ∨ c4 = '1') then
              return some ⟨desde, hasta, TipoMovimiento.promocion, some promocion_pieza⟩
            else
              return some ⟨desde, hasta, TipoMovimiento.normal, none⟩
    match movimientoOpt with
    | none => none
    | some none => some (some false, ag)
    | some (some movimiento) =>
      match ejecutar_movimiento movimiento ag.estado ag.gestor_piezas with
      | none => none
      | some tg =>
        some (some true, { ag with estado := tg.1, gestor_piezas := tg.2 })

/-- White king record as freshly registered (`BR1`). -/
def reyBlanco : Pieza :=
  { tipo := 'R', color := 'B', numero := 1, movida := false, movimiento_doble_reciente := false }

/-- White kingside rook record as freshly registered (`BT2`). -/
def torreBlanca2 : Pieza :=
  { tipo := 'T', color := 'B', numero := 2, movida := false, movimiento_doble_reciente := false }

/-- Castling test layout: white king on e1, white kingside rook on h1. -/
def tabEnroque : Tablero :=
  setCelda (setCelda tablero_vacio 7 4 "BR1") 7 7 "BT2"

/-- Registry holding exactly the castling test pieces, both unmoved. -/
def gestorEnroque : Gestor := [("BR1", reyBlanco), ("BT2", torreBlanca2)]

/-- The short-castle move `O-O` for white (`e1 → g1`). -/
def movEnroqueCorto : MovimientoAjedrez :=
  ⟨"e1", "g1", TipoMovimiento.enroque, some "O-O"⟩


/-- White pawn `BP5` on e5, already moved. -/
def peonBlanco5 : Pieza :=
  { tipo := 'P', color := 'B', numero := 5, movida := true, movimiento_doble_reciente := false }

/-- Black pawn `NP4` on d5, fresh from a double step (`movimiento_doble_reciente`). -/
def peonNegro4 : Pieza :=
  { tipo := 'P', color := 'N', numero := 4, movida := true, movimiento_doble_reciente := true }

/-- En-passant test layout: white pawn e5, black pawn d5 (just double-stepped). -/
def tabEnPassant : Tablero :=
  setCelda (setCelda tablero_vacio 3 4 "BP5") 3 3 "NP4"

/-- Registry for the en-passant scenario. -/
def gestorEnPassant : Gestor := [("BP5", peonBlanco5), ("NP4", peonNegro4)]

/-- The en-passant capture `e5 → d6`. -/
def movEnPassant : MovimientoAjedrez :=
  ⟨"e5", "d6", TipoMovimiento.en_passant, none⟩

/-- Result of applying the en-passant capture (defaulted projection). -/
def resEnPassant : Tablero × Gestor :=
  (ejecutar_movimiento movEnPassant tabEnPassant gestorEnPassant).getD (tablero_vacio, [])


/-- White pawn `BP1` on a7, one step from promotion. -/
def peonBlanco1 : Pieza :=
  { tipo := 'P', color := 'B', numero := 1, movida := true, movimiento_doble_reciente := false }

/-- Promotion test layout: white pawn on a7. -/
def tabPromocion : Tablero := setCelda tablero_vacio 1 0 "BP1"

/-- Registry for the promotion scenario. -/
def gestorPromocion : Gestor := [("BP1", peonBlanco1)]

/-- The promotion move `a7 → a8 = Q`. -/
def movPromocion : MovimientoAjedrez :=
  ⟨"a7", "a8", TipoMovimiento.promocion, some "Q"⟩

/-- Result of applying the promotion (defaulted projection). -/
def resPromocion : Tablero × Gestor :=
  (ejecutar_movimiento movPromocion tabPromocion gestorPromocion).getD (tablero_vacio, [])


/-- Board for the registry-equality counterexample: registered pawn `BP1` on
a2 next to an id (`BQ2`) that the freshly initialised registry does not hold. -/
def tabDesync : Tablero :=
  setCelda (setCelda tablero_vacio 6 0 "BP1") 4 4 "BQ2"

/-- The ordinary advance `a2 → a3`. -/
def movDesync : MovimientoAjedrez := ⟨"a2", "a3", TipoMovimiento.normal, none⟩

/-- Result of the advance from `tabDesync` under the standard registry. -/
def resDesync : Tablero × Gestor :=
  (ejecutar_movimiento movDesync tabDesync gestor_inicial).getD (tablero_vacio, [])




/-- A white pawn record with the `movida` flag set. -/
def peonMovido : Pieza :=
  { tipo := 'P', color := 'B', numero := 1, movida := true, movimiento_doble_reciente := false }


/-- Ray-shape predicate for a sliding candidate: destination `k` steps from
`(f, c)` along `(df, dc)` with `1 ≤ k ≤ 7`, every strictly intermediate step
in-bounds and empty, the destination in-bounds, and the destination either
empty or holding a piece whose color letter differs from the mover's. -/
def rayo_valido (color : Char) (t : Tablero) (f c df dc : Int) (k : Nat) : Prop :=
  1 ≤ k ∧ k ≤ 7 ∧
  (∀ j : Nat, 1 ≤ j → j < k →
    dentro_tablero (f + (j : Int) * df) (c + (j : Int) * dc) = true ∧
    celda t (f + (j : Int) * df) (c + (j : Int) * dc) = "...") ∧
  dentro_tablero (f + (k : Int) * df) (c + (k : Int) * dc) = true ∧
  (celda t (f + (k : Int) * df) (c + (k : Int) * dc) = "..." ∨
    primera (celda t (f + (k : Int) * df) (c + (k : Int) * dc)) ≠ color)

/-- A never-moved white pawn record. -/
def peonFresco : Pieza :=
  { tipo := 'P', color := 'B', numero := 1, movida := false, movimiento_doble_reciente := false }

/-- Board blocking the square directly in front of a white pawn on a2. -/
def tabBloqueo : Tablero := setCelda tablero_vacio 5 0 "NP1"

/-- A driver state used to witness the promotion-target rejection. -/
def agenteTestigo : AgenteAjedrez :=
  { color := 1, estado := tablero_vacio, gestor_piezas := gestor_inicial }

/-- The registry record of the capturing pawn after the en-passant execution
(defaulted lookup, used to witness the flag-update theorem). -/
def piezaTestigoEP : Pieza :=
  (Gestor.get_pieza resEnPassant.2 "BP5").getD reyBlanco

/-- The registry record of the freshly promoted piece (defaulted lookup, used
to witness the flag-update theorem). -/
def piezaTestigoProm : Pieza :=
  (Gestor.get_pieza resPromocion.2 "BQ1").getD reyBlanco

/-- Black king record as freshly registered (`NR1`). -/
def reyNegro : Pieza :=
  { tipo := 'R', color := 'N', numero := 1, movida := false, movimiento_doble_reciente := false }

/-- Black kingside rook record as freshly registered (`NT2`). -/
def torreNegra2 : Pieza :=
  { tipo := 'T', color := 'N', numero := 2, movida := false, movimiento_doble_reciente := false }

/-- White queenside rook record as freshly registered (`BT1`). -/
def torreBlanca1 : Pieza :=
  { tipo := 'T', color := 'B', numero := 1, movida := false, movimiento_doble_reciente := false }

/-- Castling test layout for Black: king on e8, kingside rook on h8. -/
def tabEnroqueNegro : Tablero :=
  setCelda (setCelda tablero_vacio 0 4 "NR1") 0 7 "NT2"

/-- Registry holding the Black castling test pieces, both unmoved. -/
def gestorEnroqueNegro : Gestor := [("NR1", reyNegro), ("NT2", torreNegra2)]

/-- Long-castling test layout for White: king on e1, queenside rook on a1. -/
def tabEnroqueLargo : Tablero :=
  setCelda (setCelda tablero_vacio 7 4 "BR1") 7 0 "BT1"

/-- Registry holding the White long-castling test pieces, both unmoved. -/
def gestorEnroqueLargo : Gestor := [("BR1", reyBlanco), ("BT1", torreBlanca1)]

theorem datos_append (a b : String) : (a ++ b).data = a.data ++ b.data := by
  cases a
  cases b
  rfl

theorem datos_movStr (a b : String) : (movStr a b).data = a.data ++ ' ' :: b.data := by
  simp [movStr, datos_append]

theorem movStr_inyectiva_derecha {a b b' : String}
    (h : movStr a b = movStr a b') : b = b' := by
  have hd : (movStr a b).data = (movStr a b').data := by rw [h]
  rw [datos_movStr, datos_movStr] at hd
  have h2 : ' ' :: b.data = ' ' :: b'.data := List.append_cancel_left hd
  cases b
  cases b'
  exact congrArg String.mk (by simpa using h2)

theorem letraColumna_inyectiva :
    ∀ x y : Int, 0 ≤ x → x < 8 → 0 ≤ y → y < 8 →
      letraColumna x = letraColumna y → x = y := by
  intro x y hx0 hx8 hy0 hy8
  interval_cases x <;> interval_cases y <;> decide

theorem posicion_a_notacion_columna {fila fila' c c' : Int}
    (hc0 : 0 ≤ c) (hc8 : c < 8) (hc0' : 0 ≤ c') (hc8' : c' < 8)
    (h : posicion_a_notacion fila c = posicion_a_notacion fila' c') : c = c' := by
  have hd : (posicion_a_notacion fila c).data = (posicion_a_notacion fila' c').data := by rw [h]
  simp only [posicion_a_notacion] at hd
  exact letraColumna_inyectiva c c' hc0 hc8 hc0' hc8' (List.head_eq_of_cons_eq hd)

theorem get_pieza_mem {g : Gestor} {k : String} {p : Pieza}
    (h : Gestor.get_pieza g k = some p) : (k, p) ∈ g := by
  unfold Gestor.get_pieza at h
  obtain ⟨kv, hfind, hp⟩ := Option.map_eq_some'.mp h
  have hmem := List.mem_of_find?_eq_some hfind
  have hkey := List.find?_some hfind
  obtain ⟨k1, p1⟩ := kv
  simp only [beq_iff_eq] at hkey
  simp only at hp
  subst hp hkey
  exact hmem

theorem get_pieza_none_no_mem {g : Gestor} {k : String} {p : Pieza}
    (h : Gestor.get_pieza g k = none) : (k, p) ∉ g := by
  intro hmem
  unfold Gestor.get_pieza at h
  rw [Option.map_eq_none'] at h
  rw [List.find?_eq_none] at h
  exact absurd (by simp : ((k, p).1 == k) = true) (h _ hmem)

theorem mem_actualizar_clave {g : Gestor} {k : String} {v p : Pieza}
    (h : (k, p) ∈ Gestor.actualizar g k v) : p = v := by
  unfold Gestor.actualizar at h
  obtain ⟨kv, _, hkv⟩ := List.mem_map.mp h
  by_cases hk : kv.1 = k
  · rw [if_pos hk] at hkv
    exact (Prod.mk.injEq .. ▸ hkv).2.symm
  · rw [if_neg hk] at hkv
    exact absurd (by rw [hkv]) hk

theorem mem_insertar {g : Gestor} {k k' : String} {v p : Pieza}
    (h : (k', p) ∈ Gestor.insertar g k v) :
    (k' = k ∧ p = v) ∨ (k', p) ∈ g := by
  unfold Gestor.insertar at h
  by_cases hc : g.any (fun kv => kv.1 == k)
  · rw [if_pos hc] at h
    obtain ⟨kv, hkv, hmap⟩ := List.mem_map.mp h
    by_cases hk : kv.1 = k
    · rw [if_pos hk] at hmap
      left
      exact ⟨(Prod.mk.injEq .. ▸ hmap).1.symm, (Prod.mk.injEq .. ▸ hmap).2.symm⟩
    · rw [if_neg hk] at hmap
      right
      rwa [hmap] at hkv
  · rw [if_neg hc] at h
    rcases List.mem_append.mp h with h' | h'
    · right
      exact h'
    · left
      simp at h'
      exact ⟨h'.1, h'.2⟩

theorem mem_borrar {g : Gestor} {k : String} {kv : String × Pieza}
    (h : kv ∈ Gestor.borrar g k) : kv ∈ g := by
  exact (List.mem_filter.mp h).1

theorem mem_sincronizar {g : Gestor} {t : Tablero} {kv : String × Pieza}
    (h : kv ∈ sincronizar_con_tablero g t) : kv ∈ g ∧ enTablero t kv.1 = true := by
  exact ⟨(List.mem_filter.mp h).1, (List.mem_filter.mp h).2⟩

theorem enTablero_existe {t : Tablero} {id_pieza : String}
    (h : enTablero t id_pieza = true) : ∃ i j, t i j = id_pieza := by
  unfold enTablero at h
  rw [List.any_eq_true] at h
  obtain ⟨i, _, hi⟩ := h
  rw [List.any_eq_true] at hi
  obtain ⟨j, _, hj⟩ := hi
  exact ⟨i, j, by simpa using hj⟩

theorem claves_existe {g : Gestor} {id_pieza : String}
    (h : id_pieza ∈ Gestor.claves g) : ∃ p, (id_pieza, p) ∈ g := by
  unfold Gestor.claves at h
  obtain ⟨kv, hkv, hk⟩ := List.mem_map.mp h
  exact ⟨kv.2, by rwa [show (id_pieza, kv.2) = kv from by rw [← hk]]⟩

theorem paso_cast (a d : Int) (k : Nat) :
    a + ((k + 1 : Nat) : Int) * d = (a + d) + (k : Int) * d := by
  push_cast
  ring

theorem uno_cast (a d : Int) : a + ((1 : Nat) : Int) * d = a + d := by
  push_cast
  ring

theorem barrido_caracterizacion (color : Char) (t : Tablero) (df dc : Int) :
    ∀ (fuel : Nat) (f c x y : Int),
    (x, y) ∈ barrido color t df dc fuel f c ↔
      ∃ k : Nat, 1 ≤ k ∧ k ≤ fuel ∧ x = f + (k : Int) * df ∧ y = c + (k : Int) * dc ∧
        (∀ j : Nat, 1 ≤ j → j < k →
          dentro_tablero (f + (j : Int) * df) (c + (j : Int) * dc) = true ∧
          celda t (f + (j : Int) * df) (c + (j : Int) * dc) = "...") ∧
        dentro_tablero x y = true ∧
        (celda t x y = "..." ∨ primera (celda t x y) ≠ color) := by
  intro fuel
  induction fuel with
  | zero =>
    intro f c x y
    simp only [barrido, List.not_mem_nil, false_iff, not_exists]
    rintro k ⟨hk1, hk0, _⟩
    omega
  | succ n ih =>
    intro f c x y
    simp only [barrido]
    by_cases hD : dentro_tablero (f + df) (c + dc) = true
    · rw [if_pos hD]
      by_cases hE : celda t (f + df) (c + dc) = "..."
      · rw [if_pos hE]
        simp only [List.mem_cons, ih]
        constructor
        · rintro (hq | ⟨k, hk1, hkn, hx, hy, hint, hdq, hocc⟩)
          · have hx : x = f + df := congrArg Prod.fst hq
            have hy : y = c + dc := congrArg Prod.snd hq
            refine ⟨1, le_rfl, by omega, by rw [hx, uno_cast], by rw [hy, uno_cast],
              ?_, ?_, ?_⟩
            · intro j hj1 hj2
              exact absurd hj1 (by omega)
            · rw [hx, hy]
              exact hD
            · rw [hx, hy]
              exact Or.inl hE
          · refine ⟨k + 1, by omega, by omega, by rw [hx, paso_cast], by rw [hy, paso_cast],
              ?_, hdq, hocc⟩
            intro j hj1 hjlt
            by_cases hj : j = 1
            · subst hj
              rw [uno_cast, uno_cast]
              exact ⟨hD, hE⟩
            · obtain ⟨j', rfl⟩ : ∃ j', j = j' + 1 := ⟨j - 1, by omega⟩
              rw [paso_cast, paso_cast]
              exact hint j' (by omega) (by omega)
        · rintro ⟨k, hk1, hkn, hx, hy, hint, hdq, hocc⟩
          by_cases hk : k = 1
          · subst hk
            rw [uno_cast] at hx
            rw [uno_cast] at hy
            left
            rw [hx, hy]
          · obtain ⟨k', rfl⟩ : ∃ k', k = k' + 1 := ⟨k - 1, by omega⟩
            right
            refine ⟨k', by omega, by omega, by rw [hx, paso_cast], by rw [hy, paso_cast],
              ?_, hdq, hocc⟩
            intro j hj1 hjlt
            have := hint (j + 1) (by omega) (by omega)
            rw [paso_cast, paso_cast] at this
            exact this
      · rw [if_neg hE]
        by_cases hC : primera (celda t (f + df) (c + dc)) ≠ color
        · rw [if_pos hC]
          simp only [List.mem_singleton, Prod.mk.injEq]
          constructor
          · rintro ⟨hx, hy⟩
            refine ⟨1, le_rfl, by omega, by rw [uno_cast]; exact hx, by rw [uno_cast]; exact hy,
              ?_, ?_, ?_⟩
            · intro j hj1 hj2
              exact absurd hj1 (by omega)
            · rw [hx, hy]
              exact hD
            · rw [hx, hy]
              exact Or.inr hC
          · rintro ⟨k, hk1, hkn, hx, hy, hint, hdq, hocc⟩
            by_cases hk : k = 1
            · subst hk
              rw [uno_cast] at hx
              rw [uno_cast] at hy
              exact ⟨hx, hy⟩
            · have h1 := hint 1 le_rfl (by omega)
              rw [uno_cast, uno_cast] at h1
              exact absurd h1.2 hE
        · rw [if_neg hC]
          simp only [List.not_mem_nil, false_iff, not_exists]
          rintro k ⟨hk1, hkn, hx, hy, hint, hdq, hocc⟩
          by_cases hk : k = 1
          · subst hk
            rw [uno_cast] at hx
            rw [uno_cast] at hy
            rw [hx, hy] at hocc
            rcases hocc with h | h
            · exact hE h
            · exact hC h
          · have h1 := hint 1 le_rfl (by omega)
            rw [uno_cast, uno_cast] at h1
            exact hE h1.2
    · rw [if_neg hD]
      simp only [List.not_mem_nil, false_iff, not_exists]
      rintro k ⟨hk1, hkn, hx, hy, hint, hdq, hocc⟩
      by_cases hk : k = 1
      · subst hk
        rw [uno_cast] at hx
        rw [uno_cast] at hy
        rw [hx, hy] at hdq
        exact hD hdq
      · have h1 := hint 1 le_rfl (by omega)
        rw [uno_cast, uno_cast] at h1
        exact hD h1.1

theorem mem_barridoDirecciones (color : Char) (t : Tablero) (f c : Int) (s : String) :
    ∀ dirs : List (Int × Int),
    (s ∈ barridoDirecciones dirs color (f, c) t ↔
      ∃ d ∈ dirs, ∃ q ∈ barrido color t d.1 d.2 7 f c,
        s = movStr (posicion_a_notacion f c) (posicion_a_notacion q.1 q.2)) := by
  intro dirs
  induction dirs with
  | nil => simp [barridoDirecciones]
  | cons d ds ih =>
    simp only [barridoDirecciones, List.foldr_cons, List.mem_append, List.mem_map,
      List.mem_cons]
    rw [show (List.foldr _ [] ds : List String) = barridoDirecciones ds color (f, c) t from rfl,
      ih]
    constructor
    · rintro (⟨q, hq, hs⟩ | ⟨d', hd', q, hq, hs⟩)
      · exact ⟨d, Or.inl rfl, q, hq, hs.symm⟩
      · exact ⟨d', Or.inr hd', q, hq, hs⟩
    · rintro ⟨d', hd' | hd', q, hq, hs⟩
      · subst hd'
        exact Or.inl ⟨q, hq, hs.symm⟩
      · exact Or.inr ⟨d', hd', q, hq, hs⟩

theorem peon_hijos_caracterizacion (p : Pieza) (f c : Int) (t : Tablero) (s : String) :
    s ∈ Peon.obtener_hijos p (f, c) t ↔
      (dentro_tablero (f + p.direccion) c = true ∧ celda t (f + p.direccion) c = "..." ∧
        s = movStr (posicion_a_notacion f c) (posicion_a_notacion (f + p.direccion) c))
      ∨ (dentro_tablero (f + p.direccion) c = true ∧ celda t (f + p.direccion) c = "..." ∧
          p.movida = false ∧ f = p.fila_inicial ∧
          dentro_tablero (f + 2 * p.direccion) c = true ∧
          celda t (f + 2 * p.direccion) c = "..." ∧
          s = movStr (posicion_a_notacion f c) (posicion_a_notacion (f + 2 * p.direccion) c))
      ∨ (∃ dc : Int, (dc = -1 ∨ dc = 1) ∧
          dentro_tablero (f + p.direccion) (c + dc) = true ∧
          celda t (f + p.direccion) (c + dc) ≠ "..." ∧
          primera (celda t (f + p.direccion) (c + dc)) ≠ p.color ∧
          s = movStr (posicion_a_notacion f c) (posicion_a_notacion (f + p.direccion) (c + dc))) := by
  unfold Peon.obtener_hijos
  simp only [List.foldr_cons, List.foldr_nil, List.append_nil, List.mem_append]
  constructor
  · rintro (h | h | h)
    · by_cases h1 : dentro_tablero (f + p.direccion) c = true ∧
          celda t (f + p.direccion) c = "..."
      · rw [if_pos h1] at h
        rcases List.mem_cons.mp h with hs | hs
        · exact Or.inl ⟨h1.1, h1.2, hs⟩
        · by_cases h2 : ¬p.movida = true ∧ f = p.fila_inicial ∧
              dentro_tablero (f + 2 * p.direccion) c = true ∧
              celda t (f + 2 * p.direccion) c = "..."
          · rw [if_pos h2] at hs
            refine Or.inr (Or.inl ⟨h1.1, h1.2, ?_, h2.2.1, h2.2.2.1, h2.2.2.2,
              List.mem_singleton.mp hs⟩)
            simpa using h2.1
          · rw [if_neg h2] at hs
            exact absurd hs (List.not_mem_nil s)
      · rw [if_neg h1] at h
        exact absurd h (List.not_mem_nil s)
    · by_cases h1 : dentro_tablero (f + p.direccion) (c + -1) = true ∧
          celda t (f + p.direccion) (c + -1) ≠ "..." ∧
          primera (celda t (f + p.direccion) (c + -1)) ≠ p.color
      · rw [if_pos h1] at h
        exact Or.inr (Or.inr ⟨-1, Or.inl rfl, h1.1, h1.2.1, h1.2.2, List.mem_singleton.mp h⟩)
      · rw [if_neg h1] at h
        exact absurd h (List.not_mem_nil s)
    · by_cases h1 : dentro_tablero (f + p.direccion) (c + 1) = true ∧
          celda t (f + p.direccion) (c + 1) ≠ "..." ∧
          primera (celda t (f + p.direccion) (c + 1)) ≠ p.color
      · rw [if_pos h1] at h
        exact Or.inr (Or.inr ⟨1, Or.inr rfl, h1.1, h1.2.1, h1.2.2, List.mem_singleton.mp h⟩)
      · rw [if_neg h1] at h
        exact absurd h (List.not_mem_nil s)
  · rintro (⟨hd, he, hs⟩ | ⟨hd, he, hm, hf, hd2, he2, hs⟩ | ⟨dc, hdc, hd, he, hc, hs⟩)
    · left
      rw [if_pos ⟨hd, he⟩]
      exact List.mem_cons.mpr (Or.inl hs)
    · left
      rw [if_pos ⟨hd, he⟩]
      refine List.mem_cons.mpr (Or.inr ?_)
      rw [if_pos ⟨by simp [hm], hf, hd2, he2⟩]
      exact List.mem_singleton.mpr hs
    · rcases hdc with rfl | rfl
      · refine Or.inr (Or.inl ?_)
        rw [if_pos ⟨hd, he, hc⟩]
        exact List.mem_singleton.mpr hs
      · refine Or.inr (Or.inr ?_)
        rw [if_pos ⟨hd, he, hc⟩]
        exact List.mem_singleton.mpr hs

/-- C1: evaluation of the code at the claim's scenario — white king on e1 and
kingside rook on h1, both unmoved — shows that executing the Castle move
`O-O` returns the *unchanged* board and registry: the king is still on e1, no
piece is on g1 or f1, and neither `hasMoved` flag is set, because the
`ENROQUE` arm of `ejecutar_movimiento` is a bare `pass`.  This contradicts
both the claim and the repository's own `__main__` castling test. -/
theorem C1_enroque_no_modifica :
    ejecutar_movimiento movEnroqueCorto tabEnroque gestorEnroque
      = some (tabEnroque, gestorEnroque) ∧
    tabEnroque 7 4 = "BR1" ∧ tabEnroque 7 6 = "..." ∧ tabEnroque 7 5 = "..." ∧
    tabEnroque 7 7 = "BT2" ∧
    (Gestor.get_pieza gestorEnroque "BR1").map Pieza.movida = some false ∧
    (Gestor.get_pieza gestorEnroque "BT2").map Pieza.movida = some false := by
  decide

/-- C2: evaluation of the code at the claim's scenario — white pawn on e5,
black pawn on d5 fresh from its double step — shows that executing the
EnPassant move `e5 → d6` moves the capturing pawn but leaves the captured
pawn's square `d5` occupied and its id `NP4` still registered: the
`EN_PASSANT` move type is processed by the plain `else` arm of
`ejecutar_movimiento`, which never clears the bypassed pawn's square. -/
theorem C2_en_passant_no_captura :
    (ejecutar_movimiento movEnPassant tabEnPassant gestorEnPassant).isSome = true ∧
    resEnPassant.1 2 3 = "BP5" ∧ resEnPassant.1 3 4 = "..." ∧
    resEnPassant.1 3 3 = "NP4" ∧
    Gestor.get_pieza resEnPassant.2 "NP4" = some peonNegro4 := by
  decide

/-- C3 counterexample: a board carrying the id `BQ2`, which the freshly
initialised registry does not contain, still carries it after an ordinary
move is executed, yet `BQ2` is absent from the registry — the id set and the
occupant set differ, refuting the claimed equality. -/
theorem C3_contraejemplo :
    (ejecutar_movimiento movDesync tabDesync gestor_inicial).isSome = true ∧
    resDesync.1 4 4 = "BQ2" ∧
    Gestor.get_pieza resDesync.2 "BQ2" = none := by
  decide

/-- C4 counterexample: executing the promotion `a7 → a8 = Q` creates the new
piece `BQ1` with `movida = false` — the factory constructor initialises the
flag false and the promotion arm never sets it — refuting the claim that a
freshly promoted piece has `hasMoved = true`. -/
theorem C4_contraejemplo :
    (ejecutar_movimiento movPromocion tabPromocion gestorPromocion).isSome = true ∧
    (Gestor.get_pieza resPromocion.2 "BQ1").map Pieza.movida = some false := by
  decide

/-- C5 counterexample: with the expected rook `BT2` on its corner square h1
and the corridor f1/g1 empty, the free-path check returns `true` (not the
claimed `false`) and the king's special-move generator emits the short-castle
candidate — the source's while loop stops *before* the rook's column, so the
rook's own occupied square is never inspected. -/
theorem C5_contraejemplo :
    tabEnroque 7 7 = "BT2" ∧
    verificar_enroque tabEnroque 7 4 7 = true ∧
    movEnroqueCorto ∈
      Rey.obtener_movimientos_especiales reyBlanco gestorEnroque (7, 4) tabEnroque := by
  decide

/-- C8 counterexample: a pawn record standing on its starting rank (a2) with
both forward squares empty but whose `movida` flag is `true` does not
generate the two-square advance `a2 a4` — `Peon.obtener_hijos` additionally
requires `not self.movida`, refuting the claim as stated over every pawn. -/
theorem C8_contraejemplo :
    movStr (posicion_a_notacion 6 0) (posicion_a_notacion 4 0) ∉
      Peon.obtener_hijos peonMovido (6, 0) tablero_vacio := by
  decide

/-- C9 counterexample: the notation `a9` has its rank digit outside 1–8, yet
`notacion_a_posicion` does not fail — it returns the out-of-bounds square
`(-1, 0)`, refuting the claimed failure condition. -/
theorem C9_contraejemplo : notacion_a_posicion "a9" = some (-1, 0) := by
  decide

/-- C6: requesting a promotion target `'P'` (another pawn) or `'R'` (a king)
through the driver's `mover` is rejected by the very first check, before any
move value is constructed or executed: the call returns Python `None` (never
`True`) and the agent's board and registry are returned unchanged. -/
theorem C6_promocion_rechazada (ag : AgenteAjedrez) (cadena promocion_pieza : String)
    (h : promocion_pieza = "P" ∨ promocion_pieza = "R") :
    mover ag cadena promocion_pieza = some (none, ag) := by
  unfold mover
  rw [if_pos h]

/-- Witness for C6 at a concrete state and move text. -/
theorem C6_testigo : mover agenteTestigo "f7-f8" "P" = some (none, agenteTestigo) :=
  C6_promocion_rechazada agenteTestigo "f7-f8" "P" (Or.inl rfl)

/-- C3 (amended): after `ejecutar_movimiento` returns, the registry's id set
is a *subset* of the returned board's occupants — the final reconciliation
deletes every id no longer on the board — but the converse inclusion (and
hence the claimed equality) can fail when the input board holds ids that were
never registered, as `C3_contraejemplo` shows. -/
theorem C3_registro_subconjunto (movimiento : MovimientoAjedrez) (t : Tablero)
    (g : Gestor) (t' : Tablero) (g' : Gestor)
    (h : ejecutar_movimiento movimiento t g = some (t', g'))
    (id_pieza : String) (hid : id_pieza ∈ Gestor.claves g') :
    ∃ i j, t' i j = id_pieza := by
  unfold ejecutar_movimiento at h
  obtain ⟨r, hcore, hr⟩ := Option.map_eq_some'.mp h
  have ht' : t' = r.1 := (Prod.mk.injEq .. ▸ hr).1.symm
  have hg' : g' = sincronizar_con_tablero r.2 r.1 := (Prod.mk.injEq .. ▸ hr).2.symm
  subst ht' hg'
  obtain ⟨p, hp⟩ := claves_existe hid
  exact enTablero_existe (mem_sincronizar hp).2

/-- Witness for C3 (amended) at the desynchronisation scenario: the pawn id
left in the registry indeed occupies the returned board. -/
theorem C3_testigo : ∃ i j, resDesync.1 i j = "BP1" :=
  C3_registro_subconjunto movDesync tabDesync gestor_inicial resDesync.1 resDesync.2
    (by rfl) "BP1" (by decide)

/-- C5 (amended): the castling free-path scan inspects exactly the squares
strictly *between* the king's column and the rook's column, excluding the
rook's own square (kingside: the f and g files; queenside: the b, c and d
files); and whenever the expected rook id for a side occupies its corner on
the mover's home rank (rank 7 when the king's color letter is `'B'`, rank 0
otherwise, mirroring the source's color test) with both pieces unmoved and
that corridor empty, the free-path check succeeds and the generator emits the
Castle candidate for that side — for both sides and both color branches. -/
theorem C5_camino_exclusivo :
    (∀ (t : Tablero) (fila : Int),
      (verificar_enroque t fila 4 7 = true ↔
        (celda t fila 5 = "..." ∧ celda t fila 6 = "...")))
    ∧ (∀ (t : Tablero) (fila : Int),
      (verificar_enroque t fila 4 0 = true ↔
        (celda t fila 3 = "..." ∧ celda t fila 2 = "..." ∧ celda t fila 1 = "...")))
    ∧ (∀ (t : Tablero) (g : Gestor) (rey torre : Pieza) (pos : Int × Int),
      rey.movida = false →
      celda t (if rey.color = 'B' then 7 else 0) 7
        = (if rey.color = 'B' then "BT2" else "NT2") →
      Gestor.get_pieza g (if rey.color = 'B' then "BT2" else "NT2") = some torre →
      torre.movida = false →
      celda t (if rey.color = 'B' then 7 else 0) 5 = "..." →
      celda t (if rey.color = 'B' then 7 else 0) 6 = "..." →
      (⟨posicion_a_notacion (if rey.color = 'B' then 7 else 0) 4,
        posicion_a_notacion (if rey.color = 'B' then 7 else 0) 6,
        TipoMovimiento.enroque, some "O-O"⟩ : MovimientoAjedrez)
        ∈ Rey.obtener_movimientos_especiales rey g pos t)
    ∧ (∀ (t : Tablero) (g : Gestor) (rey torre : Pieza) (pos : Int × Int),
      rey.movida = false →
      celda t (if rey.color = 'B' then 7 else 0) 0
        = (if rey.color = 'B' then "BT1" else "NT1") →
      Gestor.get_pieza g (if rey.color = 'B' then "BT1" else "NT1") = some torre →
      torre.movida = false →
      celda t (if rey.color = 'B' then 7 else 0) 3 = "..." →
      celda t (if rey.color = 'B' then 7 else 0) 2 = "..." →
      celda t (if rey.color = 'B' then 7 else 0) 1 = "..." →
      (⟨posicion_a_notacion (if rey.color = 'B' then 7 else 0) 4,
        posicion_a_notacion (if rey.color = 'B' then 7 else 0) 2,
        TipoMovimiento.enroque, some "O-O-O"⟩ : MovimientoAjedrez)
        ∈ Rey.obtener_movimientos_especiales rey g pos t) := by
  refine ⟨?_, ?_, ?_, ?_⟩
  · intro t fila
    have h : verificar_enroque t fila 4 7
        = ((celda t fila 5 == "...") && ((celda t fila 6 == "...") && true)) := rfl
    rw [h]
    simp
  · intro t fila
    have h : verificar_enroque t fila 4 0
        = ((celda t fila 3 == "...") &&
           ((celda t fila 2 == "...") && ((celda t fila 1 == "...") && true))) := rfl
    rw [h]
    simp [and_assoc]
  · intro t g rey torre pos hmov hT hget htmov h5 h6
    by_cases hB : rey.color = 'B'
    · simp only [hB, if_pos] at hT hget h5 h6
      have hver : verificar_enroque t 7 4 7 = true := by
        have h : verificar_enroque t 7 4 7
            = ((celda t 7 5 == "...") && ((celda t 7 6 == "...") && true)) := rfl
        rw [h, h5, h6]
        decide
      unfold Rey.obtener_movimientos_especiales
      rw [hmov]
      simp [hB, hT, hget, htmov, hver]
    · simp only [if_neg hB] at hT hget h5 h6
      have hver : verificar_enroque t 0 4 7 = true := by
        have h : verificar_enroque t 0 4 7
            = ((celda t 0 5 == "...") && ((celda t 0 6 == "...") && true)) := rfl
        rw [h, h5, h6]
        decide
      unfold Rey.obtener_movimientos_especiales
      rw [hmov]
      simp [if_neg hB, hT, hget, htmov, hver]
  · intro t g rey torre pos hmov hT hget htmov h3 h2 h1
    by_cases hB : rey.color = 'B'
    · simp only [hB, if_pos] at hT hget h3 h2 h1
      have hver : verificar_enroque t 7 4 0 = true := by
        have h : verificar_enroque t 7 4 0
            = ((celda t 7 3 == "...") &&
               ((celda t 7 2 == "...") && ((celda t 7 1 == "...") && true))) := rfl
        rw [h, h3, h2, h1]
        decide
      unfold Rey.obtener_movimientos_especiales
      rw [hmov]
      simp [hB, hT, hget, htmov, hver]
    · simp only [if_neg hB] at hT hget h3 h2 h1
      have hver : verificar_enroque t 0 4 0 = true := by
        have h : verificar_enroque t 0 4 0
            = ((celda t 0 3 == "...") &&
               ((celda t 0 2 == "...") && ((celda t 0 1 == "...") && true))) := rfl
        rw [h, h3, h2, h1]
        decide
      unfold Rey.obtener_movimientos_especiales
      rw [hmov]
      simp [if_neg hB, hT, hget, htmov, hver]

/-- Witness for C5 (amended), covering three distinct emission cases: White
kingside, Black kingside, and White queenside castling candidates are emitted
in the concrete layouts. -/
theorem C5_testigo :
    (⟨posicion_a_notacion 7 4, posicion_a_notacion 7 6,
      TipoMovimiento.enroque, some "O-O"⟩ : MovimientoAjedrez)
      ∈ Rey.obtener_movimientos_especiales reyBlanco gestorEnroque (7, 4) tabEnroque ∧
    (⟨posicion_a_notacion 0 4, posicion_a_notacion 0 6,
      TipoMovimiento.enroque, some "O-O"⟩ : MovimientoAjedrez)
      ∈ Rey.obtener_movimientos_especiales reyNegro gestorEnroqueNegro (0, 4) tabEnroqueNegro ∧
    (⟨posicion_a_notacion 7 4, posicion_a_notacion 7 2,
      TipoMovimiento.enroque, some "O-O-O"⟩ : MovimientoAjedrez)
      ∈ Rey.obtener_movimientos_especiales reyBlanco gestorEnroqueLargo (7, 4) tabEnroqueLargo :=
  ⟨C5_camino_exclusivo.2.2.1 tabEnroque gestorEnroque reyBlanco torreBlanca2 (7, 4)
      (by decide) (by decide) (by decide) (by decide) (by decide) (by decide),
   C5_camino_exclusivo.2.2.1 tabEnroqueNegro gestorEnroqueNegro reyNegro torreNegra2 (0, 4)
      (by decide) (by decide) (by decide) (by decide) (by decide) (by decide),
   C5_camino_exclusivo.2.2.2 tabEnroqueLargo gestorEnroqueLargo reyBlanco torreBlanca1 (7, 4)
      (by decide) (by decide) (by decide) (by decide) (by decide) (by decide) (by decide)⟩

/-- C9 (amended): `notacion_a_posicion` fails exactly when the input is
shorter than two characters, the lowercased first character is not one of
a–h, or the second character is not a decimal digit; the digit is NOT
range-checked — for any digit `d` the function returns `(8 - d, file-index)`
unchanged (so `'0'` and `'9'` yield out-of-bounds ranks, as
`C9_contraejemplo` exhibits, rather than a failure). -/
theorem C9_notacion_fallos :
    (∀ s : String, s.data.length < 2 → notacion_a_posicion s = none)
    ∧ (∀ (c0 c1 : Char) (resto : List Char),
        (notacion_a_posicion ⟨c0 :: c1 :: resto⟩ = none ↔
          (COLUMNAS.findIdx? (fun x => x = c0.toLower) = none ∨ c1.isDigit = false)))
    ∧ (∀ (c0 c1 : Char) (resto : List Char) (col : Nat),
        COLUMNAS.findIdx? (fun x => x = c0.toLower) = some col → c1.isDigit = true →
        notacion_a_posicion ⟨c0 :: c1 :: resto⟩
          = some ((8 : Int) - ((c1.toNat - '0'.toNat : Nat) : Int), (col : Int))) := by
  refine ⟨?_, ?_, ?_⟩
  · intro s h
    obtain ⟨l⟩ := s
    rcases l with _ | ⟨c0, _ | ⟨c1, resto⟩⟩
    · rfl
    · rfl
    · exact absurd h (by simp)
  · intro c0 c1 resto
    cases hf : COLUMNAS.findIdx? (fun x => x = c0.toLower) with
    | none => simp [notacion_a_posicion, hf]
    | some col =>
      cases hd : c1.isDigit with
      | false => simp [notacion_a_posicion, hf, hd]
      | true => simp [notacion_a_posicion, hf, hd]
  · intro c0 c1 resto col h1 h2
    simp [notacion_a_posicion, h1, h2]

/-- Witness for C9 (amended) at concrete notations: a valid square, a bad
letter, and a too-short input. -/
theorem C9_testigo :
    notacion_a_posicion ⟨['e', '4']⟩ = some (4, 4) ∧
    (notacion_a_posicion ⟨['i', '4']⟩ = none ↔
      (COLUMNAS.findIdx? (fun x => x = 'i'.toLower) = none ∨ ('4').isDigit = false)) ∧
    notacion_a_posicion "e" = none := by
  refine ⟨?_, ?_, ?_⟩
  · have h := C9_notacion_fallos.2.2 'e' '4' [] 4 (by decide) (by decide)
    simpa using h
  · exact C9_notacion_fallos.2.1 'i' '4' []
  · exact C9_notacion_fallos.1 "e" (by decide)

theorem mem_barrido_rayo (color : Char) (t : Tablero) (f c df dc : Int) (s : String) :
    (∃ q ∈ barrido color t df dc 7 f c,
      s = movStr (posicion_a_notacion f c) (posicion_a_notacion q.1 q.2)) ↔
    ∃ k : Nat, rayo_valido color t f c df dc k ∧
      s = movStr (posicion_a_notacion f c)
        (posicion_a_notacion (f + (k : Int) * df) (c + (k : Int) * dc)) := by
  constructor
  · rintro ⟨⟨x, y⟩, hq, hs⟩
    obtain ⟨k, h1, h7, hx, hy, hint, hdq, hocc⟩ :=
      (barrido_caracterizacion color t df dc 7 f c x y).mp hq
    subst hx
    subst hy
    exact ⟨k, ⟨h1, h7, hint, hdq, hocc⟩, hs⟩
  · rintro ⟨k, ⟨h1, h7, hint, hdq, hocc⟩, hs⟩
    refine ⟨(f + (k : Int) * df, c + (k : Int) * dc), ?_, hs⟩
    exact (barrido_caracterizacion color t df dc 7 f c _ _).mpr
      ⟨k, h1, h7, rfl, rfl, hint, hdq, hocc⟩

theorem dirs_caracterizacion (dirs : List (Int × Int)) (color : Char)
    (f c : Int) (t : Tablero) (s : String) :
    s ∈ barridoDirecciones dirs color (f, c) t ↔
      ∃ d ∈ dirs, ∃ k : Nat, rayo_valido color t f c d.1 d.2 k ∧
        s = movStr (posicion_a_notacion f c)
          (posicion_a_notacion (f + (k : Int) * d.1) (c + (k : Int) * d.2)) := by
  rw [mem_barridoDirecciones]
  apply exists_congr
  intro d
  apply and_congr_right
  intro _
  exact mem_barrido_rayo color t f c d.1 d.2 s

/-- C7: exact characterization of the Rook/Bishop/Queen candidate sweeps —
a move string is generated iff its destination lies `k ≥ 1` steps along one
of the piece's rays with every strictly intermediate square in-bounds and
empty and the destination in-bounds and empty-or-enemy (`rayo_valido`): the
first occupied square terminates the ray and is included iff enemy-occupied,
and no candidate ever jumps an occupied intermediate square. -/
theorem C7_deslizantes (p : Pieza) (f c : Int) (t : Tablero) (s : String) :
    (s ∈ Torre.obtener_hijos p (f, c) t ↔
      ∃ d ∈ Torre.DIRECCIONES, ∃ k : Nat, rayo_valido p.color t f c d.1 d.2 k ∧
        s = movStr (posicion_a_notacion f c)
          (posicion_a_notacion (f + (k : Int) * d.1) (c + (k : Int) * d.2)))
    ∧ (s ∈ Alfil.obtener_hijos p (f, c) t ↔
      ∃ d ∈ Alfil.DIRECCIONES, ∃ k : Nat, rayo_valido p.color t f c d.1 d.2 k ∧
        s = movStr (posicion_a_notacion f c)
          (posicion_a_notacion (f + (k : Int) * d.1) (c + (k : Int) * d.2)))
    ∧ (s ∈ Queen.obtener_hijos p (f, c) t ↔
      ∃ d ∈ Queen.DIRECCIONES, ∃ k : Nat, rayo_valido p.color t f c d.1 d.2 k ∧
        s = movStr (posicion_a_notacion f c)
          (posicion_a_notacion (f + (k : Int) * d.1) (c + (k : Int) * d.2))) :=
  ⟨dirs_caracterizacion Torre.DIRECCIONES p.color f c t s,
   dirs_caracterizacion Alfil.DIRECCIONES p.color f c t s,
   dirs_caracterizacion Queen.DIRECCIONES p.color f c t s⟩

theorem dentro_de_cotas {f c : Int} (hf0 : 0 ≤ f) (hf8 : f < 8) (hc0 : 0 ≤ c) (hc8 : c < 8) :
    dentro_tablero f c = true := by
  simp [dentro_tablero]
  omega

theorem cotas_de_dentro {f c : Int} (h : dentro_tablero f c = true) :
    0 ≤ f ∧ f < 8 ∧ 0 ≤ c ∧ c < 8 := by
  simp [dentro_tablero] at h
  omega

theorem pan_inyectiva_datos {fila fila' c c' : Int}
    (h : posicion_a_notacion fila c = posicion_a_notacion fila' c') :
    letraColumna c = letraColumna c' ∧
      (toString (8 - fila)).data = (toString (8 - fila')).data := by
  have hd := congrArg String.data h
  simp only [posicion_a_notacion] at hd
  exact ⟨List.head_eq_of_cons_eq hd, List.tail_eq_of_cons_eq hd⟩

theorem filas_peon (p : Pieza) :
    0 ≤ p.fila_inicial + p.direccion ∧ p.fila_inicial + p.direccion < 8 ∧
      0 ≤ p.fila_inicial + 2 * p.direccion ∧ p.fila_inicial + 2 * p.direccion < 8 := by
  by_cases hB : p.color = 'B' <;>
    simp [Pieza.fila_inicial, Pieza.direccion, obtener_fila_inicial,
      obtener_direccion_color, hB]

theorem pan_filas_peon_distintas (p : Pieza) (c c' : Int) :
    posicion_a_notacion (p.fila_inicial + 2 * p.direccion) c ≠
      posicion_a_notacion (p.fila_inicial + p.direccion) c' := by
  intro h
  have hdig := (pan_inyectiva_datos h).2
  by_cases hB : p.color = 'B'
  · have e2 : p.fila_inicial + 2 * p.direccion = 4 := by
      simp [Pieza.fila_inicial, Pieza.direccion, obtener_fila_inicial,
        obtener_direccion_color, hB]
    have e1 : p.fila_inicial + p.direccion = 5 := by
      simp [Pieza.fila_inicial, Pieza.direccion, obtener_fila_inicial,
        obtener_direccion_color, hB]
    rw [e1, e2] at hdig
    exact absurd hdig (by decide)
  · have e2 : p.fila_inicial + 2 * p.direccion = 3 := by
      simp [Pieza.fila_inicial, Pieza.direccion, obtener_fila_inicial,
        obtener_direccion_color, hB]
    have e1 : p.fila_inicial + p.direccion = 2 := by
      simp [Pieza.fila_inicial, Pieza.direccion, obtener_fila_inicial,
        obtener_direccion_color, hB]
    rw [e1, e2] at hdig
    exact absurd hdig (by decide)

/-- C8 (amended): a pawn on its color's starting rank with both forward
squares empty generates both the one- and the two-square advance *provided
its `movida` flag is false* (the condition the claim omits, refuted by
`C8_contraejemplo`); and with the intermediate square occupied it generates
neither forward move, for every pawn record and board. -/
theorem C8_avances_peon (p : Pieza) (t : Tablero) (c : Int) (h0 : 0 ≤ c) (h8 : c < 8) :
    (p.movida = false →
      celda t (p.fila_inicial + p.direccion) c = "..." →
      celda t (p.fila_inicial + 2 * p.direccion) c = "..." →
      movStr (posicion_a_notacion p.fila_inicial c)
          (posicion_a_notacion (p.fila_inicial + p.direccion) c)
        ∈ Peon.obtener_hijos p (p.fila_inicial, c) t ∧
      movStr (posicion_a_notacion p.fila_inicial c)
          (posicion_a_notacion (p.fila_inicial + 2 * p.direccion) c)
        ∈ Peon.obtener_hijos p (p.fila_inicial, c) t)
    ∧ (celda t (p.fila_inicial + p.direccion) c ≠ "..." →
      movStr (posicion_a_notacion p.fila_inicial c)
          (posicion_a_notacion (p.fila_inicial + p.direccion) c)
        ∉ Peon.obtener_hijos p (p.fila_inicial, c) t ∧
      movStr (posicion_a_notacion p.fila_inicial c)
          (posicion_a_notacion (p.fila_inicial + 2 * p.direccion) c)
        ∉ Peon.obtener_hijos p (p.fila_inicial, c) t) := by
  obtain ⟨ha, hb, hc2, hd2⟩ := filas_peon p
  have hden1 : dentro_tablero (p.fila_inicial + p.direccion) c = true :=
    dentro_de_cotas ha hb h0 h8
  have hden2 : dentro_tablero (p.fila_inicial + 2 * p.direccion) c = true :=
    dentro_de_cotas hc2 hd2 h0 h8
  constructor
  · intro hm h1 h2
    constructor
    · exact (peon_hijos_caracterizacion p p.fila_inicial c t _).mpr
        (Or.inl ⟨hden1, h1, rfl⟩)
    · exact (peon_hijos_caracterizacion p p.fila_inicial c t _).mpr
        (Or.inr (Or.inl ⟨hden1, h1, hm, rfl, hden2, h2, rfl⟩))
  · intro hocc
    constructor
    · intro hmem
      rcases (peon_hijos_caracterizacion p p.fila_inicial c t _).mp hmem with
        ⟨_, he, _⟩ | ⟨_, he, _⟩ | ⟨dc, hdc, hdia, _, _, hs⟩
      · exact hocc he
      · exact hocc he
      · have h2 := movStr_inyectiva_derecha hs
        have hcc := cotas_de_dentro hdia
        have := posicion_a_notacion_columna h0 h8 hcc.2.2.1 hcc.2.2.2 h2
        rcases hdc with rfl | rfl <;> omega
    · intro hmem
      rcases (peon_hijos_caracterizacion p p.fila_inicial c t _).mp hmem with
        ⟨_, _, hs⟩ | ⟨_, he, _⟩ | ⟨dc, hdc, hdia, _, _, hs⟩
      · exact pan_filas_peon_distintas p c c (movStr_inyectiva_derecha hs)
      · exact hocc he
      · exact pan_filas_peon_distintas p c (c + dc) (movStr_inyectiva_derecha hs)

/-- Witness for C8 (amended): a fresh pawn on a2 over an empty board gets
both advances; with a piece on a3 it gets neither. -/
theorem C8_testigo :
    (movStr (posicion_a_notacion (Pieza.fila_inicial peonFresco) 0)
        (posicion_a_notacion (Pieza.fila_inicial peonFresco + Pieza.direccion peonFresco) 0)
      ∈ Peon.obtener_hijos peonFresco (Pieza.fila_inicial peonFresco, 0) tablero_vacio ∧
     movStr (posicion_a_notacion (Pieza.fila_inicial peonFresco) 0)
        (posicion_a_notacion (Pieza.fila_inicial peonFresco + 2 * Pieza.direccion peonFresco) 0)
      ∈ Peon.obtener_hijos peonFresco (Pieza.fila_inicial peonFresco, 0) tablero_vacio) ∧
    (movStr (posicion_a_notacion (Pieza.fila_inicial peonFresco) 0)
        (posicion_a_notacion (Pieza.fila_inicial peonFresco + Pieza.direccion peonFresco) 0)
      ∉ Peon.obtener_hijos peonFresco (Pieza.fila_inicial peonFresco, 0) tabBloqueo ∧
     movStr (posicion_a_notacion (Pieza.fila_inicial peonFresco) 0)
        (posicion_a_notacion (Pieza.fila_inicial peonFresco + 2 * Pieza.direccion peonFresco) 0)
      ∉ Peon.obtener_hijos peonFresco (Pieza.fila_inicial peonFresco, 0) tabBloqueo) :=
  ⟨(C8_avances_peon peonFresco tablero_vacio 0 (by decide) (by decide)).1
      (by decide) (by decide) (by decide),
   (C8_avances_peon peonFresco tabBloqueo 0 (by decide) (by decide)).2 (by decide)⟩

/-- C10: the two-square pawn advance is generated exactly when, in addition
to the pawn standing on its color's starting rank with both forward squares
empty, the pawn record's own `movida` flag is false — so a record with
`movida = true` never generates it even from the starting rank with both
squares empty. -/
theorem C10_doble_paso (p : Pieza) (t : Tablero) (c : Int) (h0 : 0 ≤ c) (h8 : c < 8) :
    (movStr (posicion_a_notacion p.fila_inicial c)
        (posicion_a_notacion (p.fila_inicial + 2 * p.direccion) c)
      ∈ Peon.obtener_hijos p (p.fila_inicial, c) t)
    ↔ (p.movida = false ∧ celda t (p.fila_inicial + p.direccion) c = "..." ∧
       celda t (p.fila_inicial + 2 * p.direccion) c = "...") := by
  obtain ⟨ha, hb, hc2, hd2⟩ := filas_peon p
  constructor
  · intro hmem
    rcases (peon_hijos_caracterizacion p p.fila_inicial c t _).mp hmem with
      ⟨_, _, hs⟩ | ⟨_, h1, hm, _, _, h2, _⟩ | ⟨dc, hdc, hdia, _, _, hs⟩
    · exact absurd (movStr_inyectiva_derecha hs) (pan_filas_peon_distintas p c c)
    · exact ⟨hm, h1, h2⟩
    · exact absurd (movStr_inyectiva_derecha hs) (pan_filas_peon_distintas p c (c + dc))
  · rintro ⟨hm, h1, h2⟩
    exact (peon_hijos_caracterizacion p p.fila_inicial c t _).mpr
      (Or.inr (Or.inl ⟨dentro_de_cotas ha hb h0 h8, h1, hm, rfl,
        dentro_de_cotas hc2 hd2 h0 h8, h2, rfl⟩))

/-- Witness for C10: a moved pawn on a2 over an empty board — the
instantiated equivalence. -/
theorem C10_testigo :
    (movStr (posicion_a_notacion (Pieza.fila_inicial peonMovido) 0)
        (posicion_a_notacion (Pieza.fila_inicial peonMovido + 2 * Pieza.direccion peonMovido) 0)
      ∈ Peon.obtener_hijos peonMovido (Pieza.fila_inicial peonMovido, 0) tablero_vacio)
    ↔ (peonMovido.movida = false ∧
       celda tablero_vacio (Pieza.fila_inicial peonMovido + Pieza.direccion peonMovido) 0 = "..." ∧
       celda tablero_vacio (Pieza.fila_inicial peonMovido + 2 * Pieza.direccion peonMovido) 0 = "...") :=
  C10_doble_paso peonMovido tablero_vacio 0 (by decide) (by decide)

theorem mem_condicional_borrar {g : Gestor} {cond : Prop} [Decidable cond] {x : String}
    {kv : String × Pieza} (h : kv ∈ (if cond then Gestor.borrar g x else g)) : kv ∈ g := by
  split at h
  · exact mem_borrar h
  · exact h

/-- C4 (amended): after `ejecutar_movimiento`, the mover's registry record
has `movida = true` for Normal and EnPassant moves; but a Promotion's newly
created piece is registered with `movida = false` (the factory constructor
default, never overwritten — refuting the claim, see `C4_contraejemplo`), and
a Castle move updates no record at all (every surviving record is exactly as
it was in the input registry). -/
theorem C4_banderas (movimiento : MovimientoAjedrez) (t : Tablero) (g : Gestor)
    (t' : Tablero) (g' : Gestor) :
    ((movimiento.tipo = TipoMovimiento.normal ∨ movimiento.tipo = TipoMovimiento.en_passant) →
      ejecutar_movimiento movimiento t g = some (t', g') →
      ∀ (fc : Int × Int) (fdi cdi : Fin 8) (p : Pieza),
        notacion_a_posicion movimiento.desde = some fc →
        npIdx fc.1 = some fdi → npIdx fc.2 = some cdi →
        Gestor.get_pieza g' (t fdi cdi) = some p → p.movida = true)
    ∧ (movimiento.tipo = TipoMovimiento.promocion →
      ejecutar_movimiento movimiento t g = some (t', g') →
      ∀ (id_pieza : String) (p : Pieza),
        Gestor.get_pieza g' id_pieza = some p → Gestor.get_pieza g id_pieza = none →
        p.movida = false)
    ∧ (movimiento.tipo = TipoMovimiento.enroque →
      ejecutar_movimiento movimiento t g = some (t', g') →
      ∀ (id_pieza : String) (p : Pieza),
        Gestor.get_pieza g' id_pieza = some p → (id_pieza, p) ∈ g) := by
  refine ⟨?_, ?_, ?_⟩
  · intro hm hexe fc fdi cdi p hnot hfdi hcdi hp
    unfold ejecutar_movimiento at hexe
    obtain ⟨r, hcore, hr⟩ := Option.map_eq_some'.mp hexe
    unfold ejecutar_core at hcore
    rw [hnot] at hcore
    dsimp only at hcore
    rcases hhas : notacion_a_posicion movimiento.hasta with _ | fc2
    · rw [hhas] at hcore
      simp at hcore
    rw [hhas] at hcore
    dsimp only at hcore
    rw [hfdi] at hcore
    dsimp only at hcore
    rw [hcdi] at hcore
    dsimp only at hcore
    rcases hfh : npIdx fc2.1 with _ | fh
    · rw [hfh] at hcore
      simp at hcore
    rw [hfh] at hcore
    dsimp only at hcore
    rcases hch : npIdx fc2.2 with _ | ch
    · rw [hch] at hcore
      simp at hcore
    rw [hch] at hcore
    dsimp only at hcore
    rcases hm with htipo | htipo <;>
    · rw [htipo] at hcore
      dsimp only at hcore
      rcases hgp : Gestor.get_pieza g (t fdi cdi) with _ | pieza
      · rw [hgp] at hcore
        simp at hcore
      rw [hgp] at hcore
      dsimp only at hcore
      rw [Option.some.injEq] at hcore
      subst hcore
      have hg' : g' = _ := (congrArg Prod.snd hr).symm
      subst hg'
      have hmem := get_pieza_mem hp
      have hmem2 := (mem_sincronizar hmem).1
      have hfin := mem_actualizar_clave hmem2
      rw [hfin]
  · intro htipo hexe id_pieza p hp hold
    unfold ejecutar_movimiento at hexe
    obtain ⟨r, hcore, hr⟩ := Option.map_eq_some'.mp hexe
    unfold ejecutar_core at hcore
    rcases hdes : notacion_a_posicion movimiento.desde with _ | fc1
    · rw [hdes] at hcore
      simp at hcore
    rw [hdes] at hcore
    dsimp only at hcore
    rcases hhas : notacion_a_posicion movimiento.hasta with _ | fc2
    · rw [hhas] at hcore
      simp at hcore
    rw [hhas] at hcore
    dsimp only at hcore
    rcases hfd : npIdx fc1.1 with _ | fd
    · rw [hfd] at hcore
      simp at hcore
    rw [hfd] at hcore
    dsimp only at hcore
    rcases hcd : npIdx fc1.2 with _ | cd
    · rw [hcd] at hcore
      simp at hcore
    rw [hcd] at hcore
    dsimp only at hcore
    rcases hfh : npIdx fc2.1 with _ | fh
    · rw [hfh] at hcore
      simp at hcore
    rw [hfh] at hcore
    dsimp only at hcore
    rcases hch : npIdx fc2.2 with _ | ch
    · rw [hch] at hcore
      simp at hcore
    rw [hch] at hcore
    dsimp only at hcore
    rw [htipo] at hcore
    dsimp only at hcore
    rcases hcol : (t fd cd).data.head? with _ | color0
    · rw [hcol] at hcore
      simp at hcore
    rw [hcol] at hcore
    dsimp only at hcore
    rcases hmax : List.foldlM
        (pasoMaxNum (color0 :: (match movimiento.info_adicional with
          | some s => s
          | none => "None").data)) 0
        (Gestor.claves (if t fh ch ≠ "..." ∧
            TipoMovimiento.promocion ≠ TipoMovimiento.enroque then
          Gestor.borrar g (t fh ch) else g)) with _ | max_num
    · rw [hmax] at hcore
      simp at hcore
    rw [hmax] at hcore
    dsimp only at hcore
    rcases hfac : piezasFactory (match movimiento.info_adicional with
        | some s => s
        | none => "None") with _ | tipoChar
    · rw [hfac] at hcore
      simp at hcore
    rw [hfac] at hcore
    dsimp only at hcore
    rw [Option.some.injEq] at hcore
    subst hcore
    have hg' : g' = _ := (congrArg Prod.snd hr).symm
    subst hg'
    have hmem := get_pieza_mem hp
    have hmem2 := (mem_sincronizar hmem).1
    rcases mem_insertar hmem2 with ⟨_, hpv⟩ | hmem3
    · rw [hpv]
    · exact absurd (mem_condicional_borrar (mem_borrar hmem3))
        (get_pieza_none_no_mem hold)
  · intro htipo hexe id_pieza p hp
    unfold ejecutar_movimiento at hexe
    obtain ⟨r, hcore, hr⟩ := Option.map_eq_some'.mp hexe
    unfold ejecutar_core at hcore
    rcases hdes : notacion_a_posicion movimiento.desde with _ | fc1
    · rw [hdes] at hcore
      simp at hcore
    rw [hdes] at hcore
    dsimp only at hcore
    rcases hhas : notacion_a_posicion movimiento.hasta with _ | fc2
    · rw [hhas] at hcore
      simp at hcore
    rw [hhas] at hcore
    dsimp only at hcore
    rcases hfd : npIdx fc1.1 with _ | fd
    · rw [hfd] at hcore
      simp at hcore
    rw [hfd] at hcore
    dsimp only at hcore
    rcases hcd : npIdx fc1.2 with _ | cd
    · rw [hcd] at hcore
      simp at hcore
    rw [hcd] at hcore
    dsimp only at hcore
    rcases hfh : npIdx fc2.1 with _ | fh
    · rw [hfh] at hcore
      simp at hcore
    rw [hfh] at hcore
    dsimp only at hcore
    rcases hch : npIdx fc2.2 with _ | ch
    · rw [hch] at hcore
      simp at hcore
    rw [hch] at hcore
    dsimp only at hcore
    rw [htipo] at hcore
    dsimp only at hcore
    rw [Option.some.injEq] at hcore
    subst hcore
    have hg' : g' = _ := (congrArg Prod.snd hr).symm
    subst hg'
    have hmem := get_pieza_mem hp
    have hmem2 := (mem_sincronizar hmem).1
    exact mem_condicional_borrar hmem2

/-- Witness for C4 (amended), instantiating all three parts: the en-passant
mover's record ends with `movida = true`; the freshly promoted piece's record
has `movida = false`; after a Castle every surviving record was already in
the input registry. -/
theorem C4_testigo :
    piezaTestigoEP.movida = true ∧ piezaTestigoProm.movida = false ∧
    ("BR1", reyBlanco) ∈ gestorEnroque :=
  ⟨(C4_banderas movEnPassant tabEnPassant gestorEnPassant resEnPassant.1 resEnPassant.2).1
      (Or.inr rfl) (by rfl) (3, 4) 3 4 piezaTestigoEP (by decide) (by decide) (by decide)
      (by decide),
   (C4_banderas movPromocion tabPromocion gestorPromocion resPromocion.1 resPromocion.2).2.1
      rfl (by rfl) "BQ1" piezaTestigoProm (by decide) (by decide),
   (C4_banderas movEnroqueCorto tabEnroque gestorEnroque tabEnroque gestorEnroque).2.2
      rfl (by decide) "BR1" reyBlanco (by decide)⟩
